import Mathlib

/-!
Verification of the T80-to-TQI controller pipeline (t80_to_tqi.py).

The definitions below are a shallow embedding of the pure helpers
(`normalize`, `apply_deadzone`, `expo`, `to_dac12`,
`apply_acceleration_curve`), the MCP4725 payload construction, the
per-axis auto-calibration updates, and the per-tick throttle
computation of `main` (the pedal state machine).  Machine floats are
modelled as rationals (or reals where the source uses transcendental
functions); Python's `round` (banker's rounding) and `int` (truncation
toward zero) are modelled explicitly.
-/

set_option maxHeartbeats 1000000

namespace T80

/-- `normalize` from t80_to_tqi.py lines 183-186.  Note the Python
idiom `(vmax - vmin) or 1`: the span falls back to 1 only when the
difference is exactly zero (not when it is negative). -/
def normalize {α : Type*} [LinearOrderedField α] (v vmin vmax : α) : α :=
  let span := if vmax - vmin = 0 then 1 else vmax - vmin
  let x := 2 * (v - vmin) / span - 1
  max (-1) (min 1 x)

/-- `math.copysign(s, x)` for a non-negative magnitude, as used by
`apply_deadzone` (the sign of floating zero is ignored: the call site
only reaches `x ≠ 0` when the deadzone is non-negative). -/
def copysign {α : Type*} [LinearOrderedField α] (s x : α) : α :=
  if x < 0 then -|s| else |s|

/-- `apply_deadzone` from t80_to_tqi.py lines 188-191. -/
def apply_deadzone {α : Type*} [LinearOrderedField α] (x dz : α) : α :=
  if |x| ≤ dz then 0 else copysign ((|x| - dz) / (1 - dz)) x

/-- `expo` from t80_to_tqi.py lines 193-194. -/
def expo {α : Type*} [LinearOrderedField α] (x k : α) : α :=
  if k ≤ 0 then x else (1 - k) * x + k * x ^ 3

/-- Python 3 `round` on a rational: round half to even. -/
def pyRound (q : ℚ) : ℤ :=
  if q - ⌊q⌋ = 1 / 2 then (if Even ⌊q⌋ then ⌊q⌋ else ⌊q⌋ + 1) else round q

/-- Python `int` on a rational: truncation toward zero. -/
def pyInt (q : ℚ) : ℤ :=
  if 0 ≤ q then ⌊q⌋ else ⌈q⌉

/-- `to_dac12` from t80_to_tqi.py lines 196-198, with the global
`CLAMP` made an explicit parameter. -/
def to_dac12 (clampV x : ℚ) : ℤ :=
  let xr := max (-clampV) (min clampV x) / clampV
  max 0 (min 4095 (pyRound ((xr + 1) * 4095 / 2)))

/-- `apply_acceleration_curve` from t80_to_tqi.py lines 200-227, with
the globals `ACCELERATION_CURVE` and `CURVE_STRENGTH` made explicit
parameters.  Python float `**` with a float exponent on a base in
(0,1) is modelled by `Real.rpow`; `progress ** 2` by a natural power. -/
noncomputable def apply_acceleration_curve (shape : String) (strength progress : ℝ) : ℝ :=
  if progress ≤ 0 then 0
  else if 1 ≤ progress then 1
  else if shape = "linear" then progress
  else if shape = "exponential" then progress ^ strength
  else if shape = "quadratic" then progress ^ (2 : ℕ)
  else if shape = "s_curve" then 1 / (1 + Real.exp (-((progress - 1/2) * strength * 2)))
  else progress

/-- The clamped 12-bit code computed at the top of `MCP4725.write`
(t80_to_tqi.py line 233): `max(0, min(4095, int(val)))`. -/
def mcpCode (val : ℚ) : ℤ :=
  max 0 (min 4095 (pyInt val))

/-- High payload byte of `MCP4725.write` (line 234). -/
def mcpHi (val : ℚ) : ℕ :=
  ((mcpCode val).toNat >>> 4) &&& 0xFF

/-- Low payload byte of `MCP4725.write` (line 235). -/
def mcpLo (val : ℚ) : ℕ :=
  ((mcpCode val).toNat &&& 0x0F) <<< 4

/-- Primary write path (line 238): command byte 0x40 followed by the
two data bytes. -/
def mcpPrimaryPayload (val : ℚ) : ℕ × List ℕ :=
  (0x40, [mcpHi val, mcpLo val])

/-- Fallback fast-write path (lines 241-242): the same two data bytes
without the command byte. -/
def mcpFallbackPayload (val : ℚ) : List ℕ :=
  [mcpHi val, mcpLo val]

/-- Initial `ax_min` dictionary of `main` (t80_to_tqi.py line 277). -/
def ax_min_init (ax : String) : ℤ :=
  if ax = "x" then 32767 else if ax = "y" then 32767 else 0

/-- Initial `ax_max` dictionary of `main` (t80_to_tqi.py line 278). -/
def ax_max_init (ax : String) : ℤ :=
  if ax = "x" then -32768 else if ax = "y" then -32768 else 255

/-- One calibration observation (t80_to_tqi.py lines 334-335):
widen the (min, max) bounds with the new raw value. -/
def observe (b : ℤ × ℤ) (v : ℤ) : ℤ × ℤ :=
  (min b.1 v, max b.2 v)

/-- Fold a stream of raw samples through the calibration update. -/
def observeAll (b : ℤ × ℤ) (l : List ℤ) : ℤ × ℤ :=
  l.foldl observe b

/-- Mutable pedal state of `main`: the two button flags
(`button_states`) and the two press-start timestamps
(`button_press_start_time`). -/
structure PedalState (α : Type*) where
  forwardPressed : Bool
  reversePressed : Bool
  forwardStart : Option α
  reverseStart : Option α

/-- The configuration globals consulted by the throttle section of the
control loop. -/
structure ThrottleCfg (α : Type*) where
  useSeparatePedals : Bool
  pedalMode : String
  controllerType : String
  xboxUseTriggers : Bool
  xboxRawOutput : Bool
  deadzone : α
  expoK : α
  rampDuration : α

/-- The throttle computation of one control tick (t80_to_tqi.py lines
376-429), before inversion and smoothing: returns the throttle value
`y` together with the updated forward and reverse press-start
timestamps.  The acceleration curve is passed as a function argument
(`main` calls `apply_acceleration_curve`). -/
def pedalThrottle {α : Type*} [LinearOrderedField α] (cfg : ThrottleCfg α)
    (curveFn : α → α) (st : PedalState α)
    (axY yMin yMax fRaw rRaw now : α) : α × Option α × Option α :=
  if cfg.useSeparatePedals ∧ cfg.pedalMode = "buttons" then
    if st.forwardPressed ∧ st.reversePressed = false then
      let start := st.forwardStart.getD now
      let progress := min 1 ((now - start) / cfg.rampDuration)
      (curveFn progress, some start, st.reverseStart)
    else if st.reversePressed ∧ st.forwardPressed = false then
      (-1, st.forwardStart, none)
    else
      (0, none, none)
  else
    let y :=
      if cfg.controllerType = "xbox" ∧ cfg.xboxUseTriggers ∧ cfg.pedalMode = "axes" then
        let forward_norm := max 0 (min 1 (fRaw / 255))
        let reverse_norm := max 0 (min 1 (rRaw / 255))
        let y0 := forward_norm - reverse_norm
        if cfg.xboxRawOutput then y0
        else expo (apply_deadzone y0 cfg.deadzone) cfg.expoK
      else
        let y0 := normalize axY yMin yMax
        if cfg.xboxRawOutput then y0
        else expo (apply_deadzone y0 cfg.deadzone) cfg.expoK
    (y, st.forwardStart, st.reverseStart)

/-- State update of one control tick: store back the new press-start
timestamps (the button flags only change on input events). -/
def tickState {α : Type*} [LinearOrderedField α] (cfg : ThrottleCfg α)
    (curveFn : α → α) (st : PedalState α)
    (axY yMin yMax fRaw rRaw now : α) : PedalState α :=
  let r := pedalThrottle cfg curveFn st axY yMin yMax fRaw rRaw now
  { st with forwardStart := r.2.1, reverseStart := r.2.2 }

/-- Modelled from the spec: the normalizer contract as the spec states
it, with `span = max(max_seen - min_seen, 1)` (compare with
`normalize`, which embeds the source's `(vmax - vmin) or 1`). -/
def normalizeSpec (v vmin vmax : ℚ) : ℚ :=
  let span := max (vmax - vmin) 1
  max (-1) (min 1 (2 * (v - vmin) / span - 1))

/-- Modelled from the spec: the axes-mode throttle as the claim states
it — each analog pedal is normalized and independently deadzone- and
expo-shaped before the two are combined by subtraction (the forward
and reverse trigger axes have raw range 0-255). -/
def axesThrottleClaimed (dz k f r : ℚ) : ℚ :=
  expo (apply_deadzone (normalize f 0 255) dz) k
    - expo (apply_deadzone (normalize r 0 255) dz) k

/-- Buttons-mode configuration over the rationals, with the default
config values (deadzone 0.02, expo 0.25, ramp 1.0 s). -/
def cfgButtonsQ : ThrottleCfg ℚ :=
  { useSeparatePedals := true, pedalMode := "buttons", controllerType := "t80",
    xboxUseTriggers := true, xboxRawOutput := false,
    deadzone := 1/50, expoK := 1/4, rampDuration := 1 }

/-- Buttons-mode configuration over the reals. -/
noncomputable def cfgButtonsR : ThrottleCfg ℝ :=
  { useSeparatePedals := true, pedalMode := "buttons", controllerType := "t80",
    xboxUseTriggers := true, xboxRawOutput := false,
    deadzone := 1/50, expoK := 1/4, rampDuration := 1 }

/-- Axes-mode (xbox triggers) configuration over the rationals. -/
def cfgAxesQ : ThrottleCfg ℚ :=
  { useSeparatePedals := true, pedalMode := "axes", controllerType := "xbox",
    xboxUseTriggers := true, xboxRawOutput := false,
    deadzone := 1/50, expoK := 1/4, rampDuration := 1 }

/-- C4 counterexample: the claim's span formula `max(max_seen - min_seen, 1)`
disagrees with the source's `(vmax - vmin) or 1` when the bounds are
inverted (`min_seen > max_seen`): at `v = 0, min_seen = 1, max_seen = 0`
the code returns `1.0` while the claimed formula gives `-1.0`. -/
theorem normalize_span_counterexample :
    normalize (0 : ℚ) 1 0 = 1 ∧ normalizeSpec 0 1 0 = -1 ∧
    normalize (0 : ℚ) 1 0 ≠ normalizeSpec 0 1 0 := by
  norm_num [normalize, normalizeSpec, max_def, min_def]

/-- C4 (amended): whenever `min_seen ≤ max_seen` (integer bounds, which is
all the calibration tracker ever produces once ordered), `normalize`
equals the clamp to [-1, 1] of `2 * (v - min_seen) / span - 1` with
`span = max(max_seen - min_seen, 1)`; the result always lies in [-1, 1]
for all inputs; and the degenerate case `max_seen = min_seen = v`
yields exactly -1. -/
theorem normalize_amended_contract :
    (∀ (v : ℚ) (vmin vmax : ℤ), vmin ≤ vmax →
        normalize v (vmin : ℚ) (vmax : ℚ) = normalizeSpec v (vmin : ℚ) (vmax : ℚ)) ∧
    (∀ v a b : ℚ, -1 ≤ normalize v a b ∧ normalize v a b ≤ 1) ∧
    (∀ v : ℚ, normalize v v v = -1) := by
  refine ⟨?_, ?_, ?_⟩
  · intro v vmin vmax h
    rcases eq_or_lt_of_le h with he | hlt
    · subst he
      norm_num [normalize, normalizeSpec]
    · have h1 : (1 : ℚ) ≤ (vmax : ℚ) - (vmin : ℚ) := by
        have hz : vmin + 1 ≤ vmax := Int.add_one_le_iff.mpr hlt
        have hc : ((vmin : ℚ) + 1 ≤ (vmax : ℚ)) := by exact_mod_cast hz
        linarith
      have hne : (vmax : ℚ) - (vmin : ℚ) ≠ 0 := by linarith
      simp only [normalize, normalizeSpec, if_neg hne, max_eq_left h1]
  · intro v a b
    exact ⟨le_max_left _ _, max_le (by norm_num) (min_le_left _ _)⟩
  · intro v
    norm_num [normalize]

/-- C4 witness: the amended contract applied at `v = 3`, bounds (0, 10). -/
theorem normalize_amended_contract_witness :
    normalize (3 : ℚ) ((0 : ℤ) : ℚ) ((10 : ℤ) : ℚ) =
      normalizeSpec 3 ((0 : ℤ) : ℚ) ((10 : ℤ) : ℚ) :=
  normalize_amended_contract.1 3 0 10 (by decide)

/-- C7: the quantizer maps center, full scale and negative full scale to
2048, 4095 and 0 respectively, and its output always lies in the
integer range [0, 4095]. -/
theorem to_dac12_contract :
    to_dac12 (98/100) 0 = 2048 ∧ to_dac12 1 1 = 4095 ∧ to_dac12 1 (-1) = 0 ∧
    ∀ c x : ℚ, 0 ≤ to_dac12 c x ∧ to_dac12 c x ≤ 4095 := by
  refine ⟨?_, ?_, ?_, ?_⟩
  · norm_num [to_dac12, pyRound, max_def, min_def, round_eq, Int.even_iff]
  · norm_num [to_dac12, pyRound, max_def, min_def, round_eq, Int.even_iff]
  · norm_num [to_dac12, pyRound, max_def, min_def, round_eq, Int.even_iff]
  · intro c x
    exact ⟨le_max_left _ _, max_le (by norm_num) (min_le_left _ _)⟩

/-- C10: for every numeric input, the MCP4725 write clamps to a 12-bit
code in [0, 4095]; the high byte is the top eight bits of the code,
the low byte the bottom four bits shifted into the high nibble; both
bytes are valid (≤ 255); the code is exactly recoverable from the two
bytes; and the primary and fallback write paths carry identical data
bytes. -/
theorem mcp_write_payload_contract :
    ∀ val : ℚ,
      0 ≤ mcpCode val ∧ mcpCode val ≤ 4095 ∧
      mcpHi val = (mcpCode val).toNat / 16 ∧
      mcpLo val = (mcpCode val).toNat % 16 * 16 ∧
      mcpHi val * 16 + mcpLo val / 16 = (mcpCode val).toNat ∧
      mcpHi val ≤ 255 ∧ mcpLo val ≤ 255 ∧
      (mcpPrimaryPayload val).2 = mcpFallbackPayload val := by
  intro val
  have h0 : 0 ≤ mcpCode val := le_max_left _ _
  have h4095 : mcpCode val ≤ 4095 := max_le (by norm_num) (min_le_left _ _)
  have hn4095 : (mcpCode val).toNat ≤ 4095 := by
    exact Int.toNat_le.mpr (by exact_mod_cast h4095)
  have hhi : mcpHi val = (mcpCode val).toNat / 16 := by
    have hmask : ((mcpCode val).toNat >>> 4) &&& 255 = ((mcpCode val).toNat >>> 4) % 256 := by
      have := Nat.and_pow_two_sub_one_eq_mod ((mcpCode val).toNat >>> 4) 8
      norm_num at this
      exact this
    have hdiv : (mcpCode val).toNat >>> 4 = (mcpCode val).toNat / 16 := by
      have := Nat.shiftRight_eq_div_pow (mcpCode val).toNat 4
      norm_num at this
      exact this
    rw [mcpHi, hmask, hdiv, Nat.mod_eq_of_lt (by omega)]
  have hlo : mcpLo val = (mcpCode val).toNat % 16 * 16 := by
    have hmask : (mcpCode val).toNat &&& 15 = (mcpCode val).toNat % 16 := by
      have := Nat.and_pow_two_sub_one_eq_mod (mcpCode val).toNat 4
      norm_num at this
      exact this
    have hshl : ((mcpCode val).toNat % 16) <<< 4 = (mcpCode val).toNat % 16 * 16 := by
      have := Nat.shiftLeft_eq ((mcpCode val).toNat % 16) 4
      norm_num at this
      exact this
    rw [mcpLo, hmask, hshl]
  refine ⟨h0, h4095, hhi, hlo, ?_, ?_, ?_, rfl⟩
  · rw [hhi, hlo]; omega
  · rw [hhi]; omega
  · rw [hlo]; omega

/-- C9: every shape identifier outside the four recognized ones makes
the acceleration curve fall back to the linear shape: it returns the
same value as `linear` at every progress and strength, namely the
progress clamped to [0, 1]. -/
theorem unknown_shape_fallback :
    ∀ shape : String, shape ≠ "linear" → shape ≠ "exponential" →
      shape ≠ "quadratic" → shape ≠ "s_curve" →
      ∀ strength progress : ℝ,
        apply_acceleration_curve shape strength progress =
          apply_acceleration_curve "linear" strength progress ∧
        apply_acceleration_curve shape strength progress = max 0 (min 1 progress) := by
  intro shape h1 h2 h3 h4 strength p
  unfold apply_acceleration_curve
  by_cases hp0 : p ≤ 0
  · rw [if_pos hp0, if_pos hp0]
    exact ⟨rfl, (max_eq_left (le_trans (min_le_right _ _) hp0)).symm⟩
  · by_cases hp1 : 1 ≤ p
    · rw [if_neg hp0, if_neg hp0, if_pos hp1, if_pos hp1]
      refine ⟨rfl, ?_⟩
      rw [min_eq_left hp1]
      norm_num
    · rw [if_neg hp0, if_neg hp0, if_neg hp1, if_neg hp1,
        if_neg h1, if_neg h2, if_neg h3, if_neg h4, if_pos rfl]
      refine ⟨rfl, ?_⟩
      rw [min_eq_right (le_of_lt (lt_of_not_le hp1)),
        max_eq_right (le_of_lt (lt_of_not_le hp0))]

/-- C9 witness: the unrecognized shape "cubic" behaves as linear at
progress 1/2. -/
theorem unknown_shape_fallback_witness :
    apply_acceleration_curve "cubic" 2 (1/2) =
      apply_acceleration_curve "linear" 2 (1/2) ∧
    apply_acceleration_curve "cubic" 2 (1/2) = max 0 (min 1 (1/2 : ℝ)) :=
  unknown_shape_fallback "cubic" (by decide) (by decide) (by decide) (by decide) 2 (1/2)

/-- C8: `curve(0) = 0` and `curve(1) = 1` for every shape and strength,
and the curve is monotonically non-decreasing in progress for the
linear shape, the exponential shape with strength ≥ 1, and the
quadratic shape. -/
theorem curve_endpoints_and_monotone :
    (∀ (shape : String) (strength : ℝ),
        apply_acceleration_curve shape strength 0 = 0 ∧
        apply_acceleration_curve shape strength 1 = 1) ∧
    (∀ strength p q : ℝ, p ≤ q →
        apply_acceleration_curve "linear" strength p ≤
          apply_acceleration_curve "linear" strength q) ∧
    (∀ strength p q : ℝ, 1 ≤ strength → p ≤ q →
        apply_acceleration_curve "exponential" strength p ≤
          apply_acceleration_curve "exponential" strength q) ∧
    (∀ strength p q : ℝ, p ≤ q →
        apply_acceleration_curve "quadratic" strength p ≤
          apply_acceleration_curve "quadratic" strength q) := by
  refine ⟨?_, ?_, ?_, ?_⟩
  · intro shape strength
    constructor
    · rw [apply_acceleration_curve, if_pos le_rfl]
    · rw [apply_acceleration_curve, if_neg (by norm_num), if_pos le_rfl]
  · intro strength p q hpq
    unfold apply_acceleration_curve
    by_cases hp0 : p ≤ 0
    · rw [if_pos hp0]
      by_cases hq0 : q ≤ 0
      · rw [if_pos hq0]
      · rw [if_neg hq0]
        by_cases hq1 : 1 ≤ q
        · rw [if_pos hq1]; norm_num
        · rw [if_neg hq1, if_pos rfl]
          exact le_of_lt (lt_of_not_le hq0)
    · have hq0 : ¬ q ≤ 0 := fun h => hp0 (by linarith)
      rw [if_neg hp0, if_neg hq0]
      by_cases hq1 : 1 ≤ q
      · rw [if_pos hq1]
        by_cases hp1 : 1 ≤ p
        · rw [if_pos hp1]
        · rw [if_neg hp1, if_pos rfl]
          exact le_of_lt (lt_of_not_le hp1)
      · have hp1 : ¬ 1 ≤ p := fun h => hq1 (by linarith)
        rw [if_neg hq1, if_neg hp1, if_pos rfl, if_pos rfl]
        exact hpq
  · intro strength p q hs hpq
    have hne : ("exponential" : String) ≠ "linear" := by decide
    have hs0 : (0 : ℝ) ≤ strength := by linarith
    unfold apply_acceleration_curve
    by_cases hp0 : p ≤ 0
    · rw [if_pos hp0]
      by_cases hq0 : q ≤ 0
      · rw [if_pos hq0]
      · rw [if_neg hq0]
        by_cases hq1 : 1 ≤ q
        · rw [if_pos hq1]; norm_num
        · rw [if_neg hq1, if_neg hne, if_pos rfl]
          exact Real.rpow_nonneg (le_of_lt (lt_of_not_le hq0)) strength
    · have hp0' : 0 < p := lt_of_not_le hp0
      have hq0 : ¬ q ≤ 0 := fun h => hp0 (by linarith)
      rw [if_neg hp0, if_neg hq0]
      by_cases hq1 : 1 ≤ q
      · rw [if_pos hq1]
        by_cases hp1 : 1 ≤ p
        · rw [if_pos hp1]
        · rw [if_neg hp1, if_neg hne, if_pos rfl]
          exact Real.rpow_le_one (le_of_lt hp0')
            (le_of_lt (lt_of_not_le hp1)) hs0
      · have hp1 : ¬ 1 ≤ p := fun h => hq1 (by linarith)
        rw [if_neg hq1, if_neg hp1, if_neg hne, if_pos rfl, if_neg hne, if_pos rfl]
        exact Real.rpow_le_rpow (le_of_lt hp0') hpq hs0
  · intro strength p q hpq
    have hne1 : ("quadratic" : String) ≠ "linear" := by decide
    have hne2 : ("quadratic" : String) ≠ "exponential" := by decide
    unfold apply_acceleration_curve
    by_cases hp0 : p ≤ 0
    · rw [if_pos hp0]
      by_cases hq0 : q ≤ 0
      · rw [if_pos hq0]
      · rw [if_neg hq0]
        by_cases hq1 : 1 ≤ q
        · rw [if_pos hq1]; norm_num
        · rw [if_neg hq1, if_neg hne1, if_neg hne2, if_pos rfl]
          exact pow_nonneg (le_of_lt (lt_of_not_le hq0)) 2
    · have hp0' : 0 < p := lt_of_not_le hp0
      have hq0 : ¬ q ≤ 0 := fun h => hp0 (by linarith)
      rw [if_neg hp0, if_neg hq0]
      by_cases hq1 : 1 ≤ q
      · rw [if_pos hq1]
        by_cases hp1 : 1 ≤ p
        · rw [if_pos hp1]
        · rw [if_neg hp1, if_neg hne1, if_neg hne2, if_pos rfl]
          calc p ^ (2 : ℕ) ≤ 1 ^ (2 : ℕ) :=
                pow_le_pow_left₀ (le_of_lt hp0') (le_of_lt (lt_of_not_le hp1)) 2
            _ = 1 := one_pow 2
      · have hp1 : ¬ 1 ≤ p := fun h => hq1 (by linarith)
        rw [if_neg hq1, if_neg hp1, if_neg hne1, if_neg hne2, if_pos rfl,
          if_neg hne1, if_neg hne2, if_pos rfl]
        exact pow_le_pow_left₀ (le_of_lt hp0') hpq 2

/-- C8 witness: monotonicity instances at concrete progresses 1/4 ≤ 1/2
for the three shapes (exponential with strength 2 ≥ 1). -/
theorem curve_endpoints_and_monotone_witness :
    apply_acceleration_curve "linear" 2 (1/4) ≤
      apply_acceleration_curve "linear" 2 (1/2) ∧
    apply_acceleration_curve "exponential" 2 (1/4) ≤
      apply_acceleration_curve "exponential" 2 (1/2) ∧
    apply_acceleration_curve "quadratic" 2 (1/4) ≤
      apply_acceleration_curve "quadratic" 2 (1/2) :=
  ⟨curve_endpoints_and_monotone.2.1 2 (1/4) (1/2) (by norm_num),
   curve_endpoints_and_monotone.2.2.1 2 (1/4) (1/2) (by norm_num) (by norm_num),
   curve_endpoints_and_monotone.2.2.2 2 (1/4) (1/2) (by norm_num)⟩

/-- C1 counterexample: with the default configuration (exponential
curve, strength 2, ramp duration 1 s) and the reverse pedal alone held
since time 0, the tick at time 1/4 outputs exactly -1, not the
curve-ramped value -curve(min(1, (1/4 - 0)/1)) = -1/16 the claim
states. -/
theorem reverse_curve_counterexample :
    (pedalThrottle cfgButtonsR (apply_acceleration_curve "exponential" 2)
        ⟨false, true, none, none⟩ 0 0 255 0 0 (1/4)).1 = -1 ∧
    -(apply_acceleration_curve "exponential" 2 (min 1 ((1/4 - 0) / 1))) = -(1/16) ∧
    (pedalThrottle cfgButtonsR (apply_acceleration_curve "exponential" 2)
        ⟨false, true, none, none⟩ 0 0 255 0 0 (1/4)).1 ≠
      -(apply_acceleration_curve "exponential" 2 (min 1 ((1/4 - 0) / 1))) := by
  have hcurve : apply_acceleration_curve "exponential" 2 (min 1 ((1/4 - 0) / 1)) = 1/16 := by
    have h : (min 1 ((1/4 - 0) / 1) : ℝ) = 1/4 := by norm_num
    rw [h]
    have hne : ("exponential" : String) ≠ "linear" := by decide
    rw [apply_acceleration_curve, if_neg (by norm_num), if_neg (by norm_num),
      if_neg hne, if_pos rfl]
    rw [show (2 : ℝ) = ((2 : ℕ) : ℝ) by norm_num, Real.rpow_natCast]
    norm_num
  have hcode : (pedalThrottle cfgButtonsR (apply_acceleration_curve "exponential" 2)
      ⟨false, true, none, none⟩ 0 0 255 0 0 (1/4)).1 = -1 := by
    simp [pedalThrottle, cfgButtonsR]
  refine ⟨hcode, by rw [hcurve], ?_⟩
  rw [hcode, hcurve]
  norm_num

/-- C1 (amended): in buttons pedal mode, on every tick where the
reverse pedal is held and the forward pedal is not pressed, the
throttle output is exactly -1 (immediate full reverse, no ramp), the
reverse press-start timestamp is cleared to None, and the forward
press-start timestamp is left unchanged. -/
theorem buttons_reverse_instant_full {α : Type*} [LinearOrderedField α]
    (cfg : ThrottleCfg α) (curveFn : α → α) (st : PedalState α)
    (axY yMin yMax fRaw rRaw now : α)
    (h1 : cfg.useSeparatePedals = true) (h2 : cfg.pedalMode = "buttons")
    (h3 : st.reversePressed = true) (h4 : st.forwardPressed = false) :
    pedalThrottle cfg curveFn st axY yMin yMax fRaw rRaw now =
      (-1, st.forwardStart, none) := by
  simp [pedalThrottle, h1, h2, h3, h4]

/-- C1 witness: the amended behavior at a concrete reverse-held state. -/
theorem buttons_reverse_instant_full_witness :
    pedalThrottle cfgButtonsQ id ⟨false, true, none, none⟩ 0 0 255 0 0 5 =
      (-1, none, none) :=
  buttons_reverse_instant_full cfgButtonsQ id ⟨false, true, none, none⟩
    0 0 255 0 0 5 rfl rfl rfl rfl

/-- C2: the press-start invariant fails on the code.  Run: forward is
pressed and a tick at time 0 records its press-start; then forward is
released and reverse pressed before the next tick; the tick at time
1/10 takes the reverse branch, which clears only the reverse
timestamp.  At the end of that tick the forward button is released yet
its press-start timestamp is still `some 0`, not None. -/
theorem press_start_stale_after_reverse_tick :
    ∀ curveFn : ℚ → ℚ,
      let s0 : PedalState ℚ := ⟨true, false, none, none⟩
      let s1 := tickState cfgButtonsQ curveFn s0 0 0 255 0 0 0
      let s2 := tickState cfgButtonsQ curveFn
                  { s1 with forwardPressed := false, reversePressed := true }
                  0 0 255 0 0 (1/10)
      s1.forwardStart = some 0 ∧ s2.forwardPressed = false ∧ s2.forwardStart = some 0 := by
  intro curveFn
  simp [tickState, pedalThrottle, cfgButtonsQ]

/-- C3: in buttons pedal mode, on every tick where the two buttons
agree (neither pressed — i.e. the held pedal has been released — or
both pressed, the safety interlock), the throttle output is exactly 0
and both press-start timestamps are cleared to None. -/
theorem buttons_neither_or_both_zero {α : Type*} [LinearOrderedField α]
    (cfg : ThrottleCfg α) (curveFn : α → α) (st : PedalState α)
    (axY yMin yMax fRaw rRaw now : α)
    (h1 : cfg.useSeparatePedals = true) (h2 : cfg.pedalMode = "buttons")
    (h3 : st.forwardPressed = st.reversePressed) :
    pedalThrottle cfg curveFn st axY yMin yMax fRaw rRaw now = (0, none, none) := by
  cases hb : st.forwardPressed <;> simp [pedalThrottle, h1, h2, hb, ← h3]

/-- C3 witness: the safety interlock at a concrete both-pressed state
with a stored forward press-start. -/
theorem buttons_neither_or_both_zero_witness :
    pedalThrottle cfgButtonsQ id ⟨true, true, some 3, none⟩ 0 0 255 0 0 7 =
      (0, none, none) :=
  buttons_neither_or_both_zero cfgButtonsQ id ⟨true, true, some 3, none⟩
    0 0 255 0 0 7 rfl rfl rfl

/-- C5 counterexample: at trigger raw values forward = 255, reverse =
128 with the default deadzone 0.02 and expo 0.25, shaping each
normalized input independently before subtraction (the claim) yields
exactly 1, while the code shapes the combined difference and yields a
value different from it. -/
theorem axes_shaping_counterexample :
    axesThrottleClaimed (1/50) (1/4) 255 128 = 1 ∧
    (pedalThrottle cfgAxesQ id ⟨false, false, none, none⟩ 0 0 255 255 128 0).1 ≠
      axesThrottleClaimed (1/50) (1/4) 255 128 := by
  have hclaimed : axesThrottleClaimed (1/50) (1/4) 255 128 = 1 := by
    norm_num [axesThrottleClaimed, normalize, apply_deadzone, copysign, expo,
      max_def, min_def, abs]
  have hne : ("axes" : String) ≠ "buttons" := by decide
  have hcode : (pedalThrottle cfgAxesQ id ⟨false, false, none, none⟩ 0 0 255 255 128 0).1 =
      expo (apply_deadzone ((1 : ℚ) - 128/255) (1/50)) (1/4) := by
    norm_num [pedalThrottle, cfgAxesQ, hne, max_def, min_def]
  refine ⟨hclaimed, ?_⟩
  rw [hclaimed, hcode]
  norm_num [expo, apply_deadzone, copysign, abs]

/-- C5 (amended): in axes pedal mode (xbox with triggers), each tick's
throttle is obtained by clamping each trigger's raw value scaled by
1/255 to [0, 1], subtracting reverse from forward, and then — unless
raw output is enabled — deadzone/expo-shaping the combined difference
(not each input independently); the press-start timestamps are left
unchanged. -/
theorem axes_throttle_combined_shaping {α : Type*} [LinearOrderedField α]
    (cfg : ThrottleCfg α) (curveFn : α → α) (st : PedalState α)
    (axY yMin yMax fRaw rRaw now : α)
    (h1 : cfg.pedalMode = "axes") (h2 : cfg.controllerType = "xbox")
    (h3 : cfg.xboxUseTriggers = true) :
    pedalThrottle cfg curveFn st axY yMin yMax fRaw rRaw now =
      ((if cfg.xboxRawOutput then
          max 0 (min 1 (fRaw / 255)) - max 0 (min 1 (rRaw / 255))
        else
          expo (apply_deadzone (max 0 (min 1 (fRaw / 255)) - max 0 (min 1 (rRaw / 255)))
            cfg.deadzone) cfg.expoK),
        st.forwardStart, st.reverseStart) := by
  have hne : ("axes" : String) ≠ "buttons" := by decide
  simp [pedalThrottle, h1, h2, h3, hne]

/-- C5 witness: the amended axes-mode formula at concrete trigger
values (255, 128). -/
theorem axes_throttle_combined_shaping_witness :
    pedalThrottle cfgAxesQ id ⟨false, false, none, none⟩ 0 0 255 255 128 0 =
      (expo (apply_deadzone
          (max 0 (min 1 ((255 : ℚ) / 255)) - max 0 (min 1 ((128 : ℚ) / 255))) (1/50)) (1/4),
        none, none) := by
  simpa [cfgAxesQ] using axes_throttle_combined_shaping cfgAxesQ id ⟨false, false, none, none⟩
    0 0 255 255 128 0 rfl rfl rfl

/-- C6 counterexample: the forward trigger axis does not start at the
inverse-extreme sentinel pair: its initial bounds are (0, 255), so
observing [-50, 30, 100, -200] yields (-200, 255), not the claimed
(-200, 100). -/
theorem calibration_init_counterexample :
    (ax_min_init "forward", ax_max_init "forward") = (0, 255) ∧
    observeAll (ax_min_init "forward", ax_max_init "forward") [-50, 30, 100, -200] =
      (-200, 255) ∧
    observeAll (ax_min_init "forward", ax_max_init "forward") [-50, 30, 100, -200] ≠
      (-200, 100) := by
  have hfx : ("forward" : String) ≠ "x" := by decide
  have hfy : ("forward" : String) ≠ "y" := by decide
  have h1 : (ax_min_init "forward", ax_max_init "forward") = ((0 : ℤ), (255 : ℤ)) := by
    simp [ax_min_init, ax_max_init, hfx, hfy]
  have h2 : observeAll ((0 : ℤ), (255 : ℤ)) [-50, 30, 100, -200] = (-200, 255) := by
    norm_num [observeAll, observe, max_def, min_def]
  refine ⟨h1, by rw [h1]; exact h2, ?_⟩
  rw [h1, h2]
  norm_num [Prod.ext_iff]

/-- C6 (amended): the steering and throttle axes (x, y) start at the
inverse-extreme sentinel pair (32767, -32768), while the forward and
reverse trigger axes start at the normal extremes (0, 255); each
observation widens the bounds with min/max, so observing
[-50, 30, 100, -200] on the x axis yields exactly (-200, 100) in any
arrival order. -/
theorem calibration_widening_amended :
    (ax_min_init "x", ax_max_init "x") = (32767, -32768) ∧
    (ax_min_init "y", ax_max_init "y") = (32767, -32768) ∧
    (ax_min_init "forward", ax_max_init "forward") = (0, 255) ∧
    (ax_min_init "reverse", ax_max_init "reverse") = (0, 255) ∧
    ∀ l : List ℤ, l.Perm [-50, 30, 100, -200] →
      observeAll (ax_min_init "x", ax_max_init "x") l = (-200, 100) := by
  have hyx : ("y" : String) ≠ "x" := by decide
  have hfx : ("forward" : String) ≠ "x" := by decide
  have hfy : ("forward" : String) ≠ "y" := by decide
  have hrx : ("reverse" : String) ≠ "x" := by decide
  have hry : ("reverse" : String) ≠ "y" := by decide
  refine ⟨by simp [ax_min_init, ax_max_init],
    by simp [ax_min_init, ax_max_init, hyx],
    by simp [ax_min_init, ax_max_init, hfx, hfy],
    by simp [ax_min_init, ax_max_init, hrx, hry], ?_⟩
  intro l hl
  haveI : RightCommutative observe := ⟨fun b x y => by
    simp [observe, min_right_comm, sup_right_comm]⟩
  unfold observeAll
  rw [hl.foldl_eq]
  norm_num [observe, ax_min_init, ax_max_init, max_def, min_def]

/-- C6 witness: the widening result at the identity arrival order. -/
theorem calibration_widening_amended_witness :
    observeAll (ax_min_init "x", ax_max_init "x") [-50, 30, 100, -200] = (-200, 100) :=
  calibration_widening_amended.2.2.2.2 _ (List.Perm.refl _)

end T80
